import Mathlib

/-!
Verification of the work-time accounting engine of the BotCrmF5 Slack bot.

The JavaScript source stores calendar dates as `Date` objects at local
midnight (eachDayOfInterval produces start-of-day dates, and all date
comparisons in the reporting pipeline happen between such midnight dates).
We embed a date as its civil triple (year, month, day) in the proleptic
Gregorian calendar and compute with its rata-die day number, which is in
bijection with the midnight timestamps the source compares.  The locale in
the source (Colombia) has no daylight-saving time, so day arithmetic on
timestamps coincides with day arithmetic on day numbers.
-/

namespace BotCrmF5

/-- A calendar date: the civil triple (year, month, day) carried by the JS
`Date` objects used in the source (always at local midnight). -/
structure Fecha where
  y : Nat
  m : Nat
  d : Nat
deriving DecidableEq, Repr

/-- Gregorian leap-year rule (what JS `Date` uses). -/
def isLeap (y : Nat) : Bool :=
  (y % 4 == 0 && y % 100 != 0) || (y % 400 == 0)

/-- Number of days in month `m` (1-based) of year `y`. -/
def diasMes (y m : Nat) : Nat :=
  if m == 2 then (if isLeap y then 29 else 28)
  else if m == 4 || m == 6 || m == 9 || m == 11 then 30
  else 31

/-- Days in year `y` strictly before month `m` (1-based), tabulated. -/
def diasAntesMes (y m : Nat) : Nat :=
  let feb : Nat := if isLeap y then 29 else 28
  match m with
  | 0 => 0
  | 1 => 0
  | 2 => 31
  | 3 => 31 + feb
  | 4 => 62 + feb
  | 5 => 92 + feb
  | 6 => 123 + feb
  | 7 => 153 + feb
  | 8 => 184 + feb
  | 9 => 215 + feb
  | 10 => 245 + feb
  | 11 => 276 + feb
  | 12 => 306 + feb
  | _ => 337 + feb

/-- 1-based ordinal of the date within its year. -/
def dayOfYear (f : Fecha) : Nat :=
  diasAntesMes f.y f.m + f.d

/-- Days strictly before January 1 of year `y` counting from 0001-01-01. -/
def antesAnio (y : Nat) : Nat :=
  365 * (y - 1) + (y - 1) / 4 - (y - 1) / 100 + (y - 1) / 400

/-- Rata-die day number: `rd ⟨1,1,1⟩ = 1`.  It is the affine image of the
JS midnight timestamp `getTime() / 86400000`, so timestamp comparisons in
the source correspond exactly to comparisons of `rd`. -/
def rd (f : Fecha) : Nat :=
  antesAnio f.y + dayOfYear f

/-- JS `getDay()` / date-fns `getDay`: 0 = Sunday, …, 6 = Saturday.
0001-01-01 (rata die 1) was a Monday. -/
def getDayJS (f : Fecha) : Nat := rd f % 7

/-- The date is a valid civil date. -/
def Valid (f : Fecha) : Prop :=
  1 ≤ f.y ∧ 1 ≤ f.m ∧ f.m ≤ 12 ∧ 1 ≤ f.d ∧ f.d ≤ diasMes f.y f.m

instance (f : Fecha) : Decidable (Valid f) := by
  unfold Valid; exact inferInstance

/-- Successor date (the next calendar day). -/
def nextDay (f : Fecha) : Fecha :=
  if f.d < diasMes f.y f.m then ⟨f.y, f.m, f.d + 1⟩
  else if f.m < 12 then ⟨f.y, f.m + 1, 1⟩
  else ⟨f.y + 1, 1, 1⟩

/-- Predecessor date; embeds date-fns `subDays(d, 1)`, which performs
calendar-day subtraction. -/
def prevDay (f : Fecha) : Fecha :=
  if 1 < f.d then ⟨f.y, f.m, f.d - 1⟩
  else if 1 < f.m then ⟨f.y, f.m - 1, diasMes f.y (f.m - 1)⟩
  else ⟨f.y - 1, 12, 31⟩

/-- `n` consecutive days starting at `f`. -/
def listaDias : Nat → Fecha → List Fecha
  | 0, _ => []
  | n + 1, f => f :: listaDias n (nextDay f)

/-- date-fns `eachDayOfInterval({start, end})`: every calendar day from
`ini` to `fin` inclusive (empty when `fin` precedes `ini`; the library
throws there, and every caller in the source only reaches it with
`ini ≤ fin`). -/
def eachDayOfInterval (ini fin : Fecha) : List Fecha :=
  listaDias (rd fin + 1 - rd ini) ini

/-- date-fns `startOfWeek(_, { weekStartsOn: 1 })` at the day-number level:
the Monday on or before the given day number. -/
def sow (n : Nat) : Nat := n - (n + 6) % 7

/-- date-fns `getWeekYear` with `weekStartsOn: 1, firstWeekContainsDate: 1`:
the week-numbering year of the date (week 1 is the Monday-start week
containing January 1). -/
def getWeekYear (f : Fecha) : Nat :=
  if sow (rd ⟨f.y + 1, 1, 1⟩) ≤ rd f then f.y + 1
  else if sow (rd ⟨f.y, 1, 1⟩) ≤ rd f then f.y
  else f.y - 1

/-- date-fns `getWeek(fecha, { weekStartsOn: 1 })`: 1-based index of the
Monday-start week of `fecha` within its week-numbering year. -/
def getWeekJS (f : Fecha) : Nat :=
  (sow (rd f) - sow (rd ⟨getWeekYear f, 1, 1⟩)) / 7 + 1

/-- `ServicioFechas.esSabadoDescanso` from `checkMe.js` (lines 75-87):
non-Saturdays are never rest days; a Saturday is a rest day when the
week-of-year parity matches the rotation type (type 1 rests on odd weeks,
type 2 on even weeks). -/
def esSabadoDescanso_checkMe (fecha : Fecha) (tipoDescanso : Nat) : Bool :=
  if getDayJS fecha != 6 then false
  else
    let semanaDelAnio := getWeekJS fecha
    (tipoDescanso == 1 && semanaDelAnio % 2 == 1) ||
      (tipoDescanso == 2 && semanaDelAnio % 2 == 0)

/-- `ServicioFechas.esSabadoDescanso` from `checkAllPast.js` (lines
106-110): same week-of-year rule, written with `% 2 !== 0` for type 1. -/
def esSabadoDescanso_checkAllPast (fecha : Fecha) (tipoDescanso : Nat) : Bool :=
  if getDayJS fecha != 6 then false
  else
    let semanaDelAnio := getWeekJS fecha
    (tipoDescanso == 1 && semanaDelAnio % 2 != 0) ||
      (tipoDescanso == 2 && semanaDelAnio % 2 == 0)

/-- `ServicioFechas.esSabadoDescanso` from `checkAll.js` (lines 105-109):
uses the 1-based week-of-month index `Math.ceil(getDate() / 7)` instead of
the week of the year. -/
def esSabadoDescanso_checkAll (fecha : Fecha) (tipoDescanso : Nat) : Bool :=
  if getDayJS fecha != 6 then false
  else
    let semanaDelMes := (fecha.d + 6) / 7
    (tipoDescanso == 1 && semanaDelMes % 2 == 1) ||
      (tipoDescanso == 2 && semanaDelMes % 2 == 0)

/-- `ServicioFechas.obtenerDiasLaborables` from `checkMe.js` (lines 62-73):
filters the inclusive day range, dropping holidays, Sundays and rest
Saturdays.  The source compares `format(dia, 'yyyy-MM-dd')` against the
holiday strings; as that format is a bijection between valid dates and
their canonical strings, the string membership test is embedded as date
membership. -/
def obtenerDiasLaborables (fechaInicio fechaFin : Fecha) (tipoDescanso : Nat)
    (festivos : List Fecha) : List Fecha :=
  (eachDayOfInterval fechaInicio fechaFin).filter fun dia =>
    !(decide (dia ∈ festivos)) && !(getDayJS dia == 0) &&
      !(esSabadoDescanso_checkMe dia tipoDescanso)

/-- JS `String.prototype.padStart(2, '0')`. -/
def padStart2 (s : String) : String :=
  if s.length ≥ 2 then s else if s.length = 1 then "0" ++ s else "00"

/-- date-fns `format(fecha, 'dd/MM/yyyy')`. -/
def formatDDMMYYYY (f : Fecha) : String :=
  padStart2 (toString f.d) ++ "/" ++ padStart2 (toString f.m) ++ "/" ++ toString f.y

/-- The record returned by `ServicioReporteTiempo.obtenerReporteDiario`
(`checkMe.js` lines 169-177). -/
structure DiaReporte where
  fecha : String
  fechaObj : Fecha
  mensaje : String
  horas : Nat
  minutos : Nat
  cumpleRequerimiento : Bool
  esSabado : Bool
deriving DecidableEq, Repr

/-- `ServicioReporteTiempo.obtenerReporteDiario` from `checkMe.js` (lines
120-178), as a pure function of the date and of the activity query result.
The SQL query returns `SUM(TickActConsHor), SUM(TickActConsMin)`; both sums
are `NULL` exactly when no row matches, which the source tests jointly
(`TotalHoras !== null && TotalMinutos !== null`), so the result is embedded
as `Option (Nat × Nat)`.  The JS decimal-hour arithmetic is over doubles;
every quantity involved is a multiple of 1/60 and far above the rounding
error of doubles, so exact rational arithmetic is a faithful model. -/
def obtenerReporteDiario (fecha : Fecha) (consulta : Option (Nat × Nat)) :
    DiaReporte :=
  let esSabado := getDayJS fecha == 6
  let horasRequeridas : ℚ := if esSabado then 3 else 17 / 2
  match consulta with
  | some (totalHoras, totalMinutos) =>
    let horasRegistradas : Nat := totalHoras + totalMinutos / 60
    let minutosRegistrados : Nat := totalMinutos % 60
    let totalHorasDecimal : ℚ := (horasRegistradas : ℚ) + (minutosRegistrados : ℚ) / 60
    let cumpleRequerimiento := decide (horasRequeridas ≤ totalHorasDecimal)
    let faltante :=
      if cumpleRequerimiento then ""
      else
        let horasFaltantes : ℤ := ⌊horasRequeridas - totalHorasDecimal⌋
        let minutosFaltantes : ℤ :=
          round ((horasRequeridas - totalHorasDecimal - horasFaltantes) * 60)
        " - *Faltan " ++ toString horasFaltantes ++ "h " ++
          toString minutosFaltantes ++ "m*"
    { fecha := formatDDMMYYYY fecha
      fechaObj := fecha
      mensaje := "*" ++ toString horasRegistradas ++ "h " ++
        padStart2 (toString minutosRegistrados) ++ "m*" ++ faltante
      horas := horasRegistradas
      minutos := minutosRegistrados
      cumpleRequerimiento := cumpleRequerimiento
      esSabado := esSabado }
  | none =>
    let horasFaltantes : ℤ := ⌊horasRequeridas⌋
    let minutosFaltantes : ℤ := round ((horasRequeridas - horasFaltantes) * 60)
    let faltante := " - *Faltan " ++ toString horasFaltantes ++ "h " ++
      toString minutosFaltantes ++ "m*"
    { fecha := formatDDMMYYYY fecha
      fechaObj := fecha
      mensaje := "*Sin registro*" ++ faltante
      horas := 0
      minutos := 0
      cumpleRequerimiento := false
      esSabado := esSabado }

/-- The record returned by `ServicioReporteTiempo.calcularResumenSemanal`
(`checkMe.js` lines 201-206). -/
structure ResumenSemanal where
  totalHoras : Nat
  totalMinutos : Nat
  horasRequeridas : String
  cumpleRequerimiento : Bool
deriving DecidableEq, Repr

/-- `ServicioReporteTiempo.calcularResumenSemanal` from `checkMe.js`
(lines 180-207). -/
def calcularResumenSemanal (diasSemana : List DiaReporte) : ResumenSemanal :=
  let totalHoras : Nat := diasSemana.foldl (fun sum dia => sum + dia.horas) 0
  let totalMinutos : Nat := diasSemana.foldl (fun sum dia => sum + dia.minutos) 0
  let horasFormateadas : Nat := totalHoras + totalMinutos / 60
  let minutosFormateados : Nat := totalMinutos % 60
  let diasLaborales := (diasSemana.filter fun dia => !dia.esSabado).length
  let sabadosLaborables := (diasSemana.filter fun dia => dia.esSabado).length
  let totalHorasRequeridas : ℚ := diasLaborales * (17 / 2 : ℚ) + sabadosLaborables * 3
  let horasRequeridasEntero : ℤ := ⌊totalHorasRequeridas⌋
  let minutosRequeridos : ℤ := round ((totalHorasRequeridas - horasRequeridasEntero) * 60)
  let totalHorasDecimal : ℚ := (horasFormateadas : ℚ) + (minutosFormateados : ℚ) / 60
  let cumpleRequerimiento := decide (totalHorasRequeridas ≤ totalHorasDecimal)
  { totalHoras := horasFormateadas
    totalMinutos := minutosFormateados
    horasRequeridas := toString horasRequeridasEntero ++ "h " ++
      padStart2 (toString minutosRequeridos) ++ "m"
    cumpleRequerimiento := cumpleRequerimiento }

/-- The record returned by `ServicioReporteTiempo.calcularResumenMensual`. -/
structure ResumenMensual where
  totalHoras : Nat
  totalMinutos : Nat
  horasRequeridas : String
  cumpleRequerimiento : Bool
  sabadosExcluidos : Nat
  festivosExcluidos : Nat
deriving DecidableEq, Repr

/-- `ServicioReporteTiempo.calcularResumenMensual` from `checkMe.js`
(lines 209-221): the weekly aggregation applied to the whole period, with
the exclusion counts attached. -/
def calcularResumenMensual (diasReporte : List DiaReporte)
    (sabadosExcluidos festivosExcluidos : Nat) : ResumenMensual :=
  let r := calcularResumenSemanal diasReporte
  { totalHoras := r.totalHoras
    totalMinutos := r.totalMinutos
    horasRequeridas := r.horasRequeridas
    cumpleRequerimiento := r.cumpleRequerimiento
    sabadosExcluidos := sabadosExcluidos
    festivosExcluidos := festivosExcluidos }

/-- Per-employee send decision of `crm-check-all-admin` (`checkAll.js`
lines 505-523): the loop sets `tienePendientes` when any daily report
fails, and skips the employee (`continue`) exactly when it stayed false. -/
def decideEnviar_checkAll (reportesDiarios : List DiaReporte) : Bool :=
  reportesDiarios.foldl
    (fun tienePendientes reporte =>
      if !reporte.cumpleRequerimiento then true else tienePendientes) false

/-- Per-employee send decision of `crm-check-all-admin-past`
(`checkAllPast.js` lines 305-314): the employee is skipped exactly when
`resumenMensual.cumpleRequerimiento` holds. -/
def decideEnviar_checkAllPast (reportesDiarios : List DiaReporte)
    (sabadosExcluidos festivosExcluidos : Nat) : Bool :=
  !(calcularResumenMensual reportesDiarios sabadosExcluidos
      festivosExcluidos).cumpleRequerimiento

/-- The Monday-start week key used by `agruparPorSemanas`: the source keys
its `Map` by `format(startOfWeek(dia.fechaObj, { weekStartsOn: 1 }),
'yyyy-MM-dd')`; as that format is injective on dates, the key is embedded
as the day number of the Monday. -/
def claveSemana (dia : DiaReporte) : Nat := sow (rd dia.fechaObj)

/-- One step of the `Map` construction in `agruparPorSemanas`: append the
day to its week bucket, creating the bucket at the end on first sight
(JS `Map` preserves insertion order). -/
def insertarEnSemana (grupos : List (Nat × List DiaReporte)) (clave : Nat)
    (dia : DiaReporte) : List (Nat × List DiaReporte) :=
  match grupos with
  | [] => [(clave, [dia])]
  | (c, g) :: resto =>
    if c = clave then (c, g ++ [dia]) :: resto
    else (c, g) :: insertarEnSemana resto clave dia

/-- First element's day number, used by the sort comparator
`semanaA[0].fechaObj - semanaB[0].fechaObj`. -/
def rdPrimero (semana : List DiaReporte) : Nat :=
  match semana with
  | [] => 0
  | dia :: _ => rd dia.fechaObj

/-- `ServicioFechas.agruparPorSemanas` from `checkMe.js` (lines 89-116):
buckets the records by Monday-start week in a `Map`, then sorts the groups
by the date of their first record. -/
def agruparPorSemanas (dias : List DiaReporte) : List (List DiaReporte) :=
  if dias.isEmpty then []
  else
    let semanasAgrupadas :=
      dias.foldl (fun acc dia => insertarEnSemana acc (claveSemana dia) dia) []
    (semanasAgrupadas.map (·.2)).mergeSort fun a b => rdPrimero a ≤ rdPrimero b

/-- Report period of `crm-check-me` (`checkMe.js` lines 423-425):
`primerDiaMes = new Date(y, m, 1)` and `ayer = subDays(hoy, 1)`. -/
def periodo_checkMe (hoy : Fecha) : Fecha × Fecha :=
  (⟨hoy.y, hoy.m, 1⟩, prevDay hoy)

/-- date-fns `subMonths(f, 1)`: previous month, clamping the day to the
target month's length. -/
def subMonths1 (f : Fecha) : Fecha :=
  let y := if f.m == 1 then f.y - 1 else f.y
  let m := if f.m == 1 then 12 else f.m - 1
  ⟨y, m, min f.d (diasMes y m)⟩

/-- date-fns `startOfMonth`. -/
def startOfMonth (f : Fecha) : Fecha := ⟨f.y, f.m, 1⟩

/-- date-fns `endOfMonth`. -/
def endOfMonth (f : Fecha) : Fecha := ⟨f.y, f.m, diasMes f.y f.m⟩

/-- Report period of `crm-check-all-admin` (`checkAll.js` lines 446-448,
identical in `checkAllPast.js` lines 273-275):
`startOfMonth(subMonths(hoy, 1))` through `endOfMonth(subMonths(hoy, 1))`. -/
def periodo_checkAll (hoy : Fecha) : Fecha × Fecha :=
  (startOfMonth (subMonths1 hoy), endOfMonth (subMonths1 hoy))

/-- A row of the `Tareas` table as selected by
`ServicioNotificaciones.obtenerTareaPorId` (`notifyTasks.js` line 57).
`none` embeds a `NULL` (or empty, hence falsy) code column. -/
structure Tarea where
  TarSec : Nat
  TarDes : String
  FunCod : Option String
  SubFunCodTar : Option String
deriving DecidableEq, Repr

/-- The external collaborators of `NotifyTasksFunction.execute`: the task
lookup, the `Funcionarios` alias and name lookups, and the Slack user
directory. -/
structure EntornoNotify where
  tareas : Nat → Option Tarea
  usernameDe : String → Option String
  nombreDe : String → Option String
  slackIdDe : String → Option String

/-- `ServicioNotificaciones.obtenerNombreDeFuncionario` (`notifyTasks.js`
lines 83-95): falls back to `'Un usuario'` for a missing code or row. -/
def obtenerNombreDeFuncionario (env : EntornoNotify) (funCod : Option String) :
    String :=
  match funCod with
  | none => "Un usuario"
  | some c =>
    match env.nombreDe c with
    | none => "Un usuario"
    | some nom => nom.trim

/-- Tail of `NotifyTasksFunction.execute` (`notifyTasks.js` lines 124-153)
after the target code and message are fixed: resolve alias, resolve Slack
id, send.  Returns the outcome (`Except.error` embeds a thrown `Error`)
paired with the list of Slack messages sent as `(channel, text)`. -/
def notifyContinuar (env : EntornoNotify) (vaDirigidoA : String) (tarSec : Nat)
    (targetFunCod : Option String) (mensaje : String) :
    Except String String × List (String × String) :=
  match targetFunCod with
  | none =>
    (Except.ok ("La tarea " ++ toString tarSec ++
      " no tiene un destinatario válido para la acción \x27" ++ vaDirigidoA ++
      "\x27."), [])
  | some target =>
    match env.usernameDe target with
    | none =>
      (Except.ok ("No se encontró el username de Slack para el funcionario " ++
        target ++ "."), [])
    | some usernameSlack =>
      match env.slackIdDe usernameSlack with
      | none =>
        (Except.ok ("No se encontró el usuario de Slack correspondiente al funcionario " ++
          target ++ "."), [])
      | some slackUserId =>
        (Except.ok ("Notificación para la tarea " ++ toString tarSec ++
          " enviada correctamente a " ++ target ++ "."), [(slackUserId, mensaje)])

/-- `NotifyTasksFunction.execute` from `notifyTasks.js` (lines 103-154).
A `chat.postMessage` transport failure (which the source rethrows) is not
modelled; every claim in scope terminates before the send. -/
def notifyExecute (env : EntornoNotify) (vaDirigidoA : String) (tarSec : Nat) :
    Except String String × List (String × String) :=
  match env.tareas tarSec with
  | none => (Except.error ("La tarea con ID " ++ toString tarSec ++ " no existe."), [])
  | some tarea =>
    if vaDirigidoA == "NotificarAsignado" then
      notifyContinuar env vaDirigidoA tarSec tarea.SubFunCodTar
        ("👋 ¡Hola! *" ++ obtenerNombreDeFuncionario env tarea.FunCod ++
          "* te asignó la tarea con ID *" ++ toString tarSec ++
          "*. Por favor, revísala en el sistema.")
    else if vaDirigidoA == "NotificarCreador" then
      notifyContinuar env vaDirigidoA tarSec tarea.FunCod
        ("👍 ¡Buenas noticias! *" ++ obtenerNombreDeFuncionario env tarea.SubFunCodTar ++
          "* finalizó la tarea con ID *" ++ toString tarSec ++
          "*. Ya puedes verificarla.")
    else
      (Except.error ("El parámetro \x27vaDirigidoA\x27 (\"" ++ vaDirigidoA ++
        "\") no es válido."), [])

/-- The target employee code `execute` resolves for each notification kind
(`notifyTasks.js` lines 112-118). -/
def targetDe (vaDirigidoA : String) (tarea : Tarea) : Option String :=
  if vaDirigidoA == "NotificarAsignado" then tarea.SubFunCodTar
  else tarea.FunCod

/-! ## Helper lemmas -/

/-- The JS decimal-hours comparison `q ≤ H + M / 60` is the minute
comparison `60 q ≤ 60 H + M`. -/
lemma dec_le_decimal (q : ℚ) (H M : Nat) :
    (q ≤ (H : ℚ) + (M : ℚ) / 60) ↔ 60 * q ≤ ((60 * H + M : ℕ) : ℚ) := by
  rw [show ((60 * H + M : ℕ) : ℚ) = 60 * (H : ℚ) + (M : ℚ) by push_cast; ring]
  constructor <;> intro h <;> nlinarith

lemma esSabado_reporte (fecha : Fecha) (consulta : Option (Nat × Nat)) :
    (obtenerReporteDiario fecha consulta).esSabado = (getDayJS fecha == 6) := by
  rcases consulta with _ | ⟨th, tm⟩ <;> simp [obtenerReporteDiario]

lemma minutos_reporte (fecha : Fecha) (th tm : Nat) :
    (obtenerReporteDiario fecha (some (th, tm))).horas = th + tm / 60 ∧
      (obtenerReporteDiario fecha (some (th, tm))).minutos = tm % 60 := by
  simp [obtenerReporteDiario]

/-- The daily pass flag is exactly the minute-level threshold test. -/
lemma cumple_diario_iff (fecha : Fecha) (consulta : Option (Nat × Nat)) :
    (obtenerReporteDiario fecha consulta).cumpleRequerimiento = true ↔
      (if getDayJS fecha = 6 then 180 else 510) ≤
        60 * (obtenerReporteDiario fecha consulta).horas +
          (obtenerReporteDiario fecha consulta).minutos := by
  rcases consulta with _ | ⟨th, tm⟩
  · simp only [obtenerReporteDiario]
    constructor
    · intro h; exact absurd h (by simp)
    · intro h; exfalso; revert h; split <;> omega
  · simp only [obtenerReporteDiario, decide_eq_true_eq]
    rw [dec_le_decimal]
    have hcast : ((60 * (th + tm / 60) + tm % 60 : ℕ) : ℚ) = ((60 * th + tm : ℕ) : ℚ) := by
      congr 1; omega
    have hnat : 60 * (th + tm / 60) + tm % 60 = 60 * th + tm := by omega
    by_cases h6 : getDayJS fecha = 6
    · simp only [h6, if_pos, beq_self_eq_true, if_true]
      rw [hcast, hnat, show (60 : ℚ) * 3 = ((180 : ℕ) : ℚ) by norm_num]
      exact ⟨fun h => by exact_mod_cast h, fun h => by exact_mod_cast h⟩
    · have hb : (getDayJS fecha == 6) = false := by simpa using h6
      simp only [hb, if_neg, Bool.false_eq_true, if_false, h6]
      rw [hcast, hnat, show (60 : ℚ) * (17 / 2) = ((510 : ℕ) : ℚ) by norm_num]
      exact ⟨fun h => by exact_mod_cast h, fun h => by exact_mod_cast h⟩

lemma foldl_add_map (f : DiaReporte → Nat) :
    ∀ (l : List DiaReporte) (s : Nat),
      l.foldl (fun a d => a + f d) s = s + (l.map f).sum := by
  intro l
  induction l with
  | nil => intro s; simp
  | cons d tl ih => intro s; simp [ih]; omega

lemma sum_sesenta (dias : List DiaReporte) :
    (dias.map fun d => 60 * d.horas + d.minutos).sum =
      60 * (dias.map fun d => d.horas).sum + (dias.map fun d => d.minutos).sum := by
  induction dias with
  | nil => simp
  | cons d tl ih => simp [ih]; ring

/-- The weekly pass flag is exactly the minute-level totals test. -/
lemma cumple_semanal_iff (dias : List DiaReporte) :
    (calcularResumenSemanal dias).cumpleRequerimiento = true ↔
      510 * (dias.filter fun d => !d.esSabado).length +
          180 * (dias.filter fun d => d.esSabado).length ≤
        (dias.map fun d => 60 * d.horas + d.minutos).sum := by
  simp only [calcularResumenSemanal, decide_eq_true_eq]
  rw [foldl_add_map, foldl_add_map, Nat.zero_add, Nat.zero_add, dec_le_decimal]
  have h1 : ((60 * ((dias.map fun d => d.horas).sum +
      (dias.map fun d => d.minutos).sum / 60) +
        (dias.map fun d => d.minutos).sum % 60 : ℕ) : ℚ) =
      (((dias.map fun d => 60 * d.horas + d.minutos).sum : ℕ) : ℚ) := by
    congr 1
    rw [sum_sesenta]
    omega
  rw [h1]
  set n := (dias.filter fun d => !d.esSabado).length with hn
  set k := (dias.filter fun d => d.esSabado).length with hk
  have h2 : (60 : ℚ) * ((n : ℚ) * (17 / 2) + (k : ℚ) * 3) =
      ((510 * n + 180 * k : ℕ) : ℚ) := by push_cast; ring
  rw [h2]
  exact ⟨fun h => by exact_mod_cast h, fun h => by exact_mod_cast h⟩

lemma floor_div60 (T : ℕ) : ⌊(T : ℚ) / 60⌋ = ((T / 60 : ℕ) : ℤ) := by
  set d := T / 60 with hd
  set r := T % 60 with hr
  have hdm : (60 : ℚ) * (d : ℚ) + (r : ℚ) = (T : ℚ) := by
    exact_mod_cast Nat.div_add_mod T 60
  have hmod : ((r : ℕ) : ℚ) < 60 := by
    exact_mod_cast Nat.mod_lt T (show 0 < 60 by norm_num)
  have hmod0 : (0 : ℚ) ≤ ((r : ℕ) : ℚ) := by positivity
  rw [Int.floor_eq_iff]
  constructor
  · rw [le_div_iff₀ (by norm_num : (0 : ℚ) < 60)]
    push_cast
    linarith
  · rw [div_lt_iff₀ (by norm_num : (0 : ℚ) < 60)]
    push_cast
    linarith

lemma round_frac60 (T : ℕ) :
    round (((T : ℚ) / 60 - ((T / 60 : ℕ) : ℚ)) * 60) = ((T % 60 : ℕ) : ℤ) := by
  set d := T / 60 with hd
  set r := T % 60 with hr
  have hdm : (60 : ℚ) * (d : ℚ) + (r : ℚ) = (T : ℚ) := by
    exact_mod_cast Nat.div_add_mod T 60
  have hq : ((T : ℚ) / 60 - (d : ℚ)) * 60 = ((r : ℕ) : ℚ) := by
    field_simp
    linarith
  rw [hq, round_natCast]

lemma toString_int_ofNat (n : ℕ) : toString ((n : ℕ) : ℤ) = toString n := rfl

/-- The rendered required-hours string of the weekly summary is the
rendering of `510·(weekday count) + 180·(Saturday count)` minutes. -/
lemma requeridas_semanal (dias : List DiaReporte) :
    (calcularResumenSemanal dias).horasRequeridas =
      toString ((510 * (dias.filter fun d => !d.esSabado).length +
          180 * (dias.filter fun d => d.esSabado).length) / 60) ++ "h " ++
        padStart2 (toString ((510 * (dias.filter fun d => !d.esSabado).length +
          180 * (dias.filter fun d => d.esSabado).length) % 60)) ++ "m" := by
  simp only [calcularResumenSemanal]
  set n := (dias.filter fun d => !d.esSabado).length with hn
  set k := (dias.filter fun d => d.esSabado).length with hk
  have h2 : (n : ℚ) * (17 / 2) + (k : ℚ) * 3 = ((510 * n + 180 * k : ℕ) : ℚ) / 60 := by
    push_cast; ring
  rw [h2, floor_div60, Int.cast_natCast, round_frac60, toString_int_ofNat,
    toString_int_ofNat]

/-! ## Claim theorems (aggregation, decisions, relay) -/

/-- Claim C1 (counterexample): at Saturday 2025-04-05 with rotation type 1,
the week-of-year rule of `checkMe.js` and the week-of-month rule of
`checkAll.js` disagree, refuting the claimed equivalence. -/
theorem claim_C1_counterexample :
    getDayJS ⟨2025, 4, 5⟩ = 6 ∧
      esSabadoDescanso_checkMe ⟨2025, 4, 5⟩ 1 = false ∧
      esSabadoDescanso_checkAll ⟨2025, 4, 5⟩ 1 = true := by
  refine ⟨by decide, by decide, by decide⟩

/-- Claim C1 (amended): the two week-of-year implementations (`checkMe.js`
and `checkAllPast.js`) compute the same function, but the week-of-month
implementation (`checkAll.js`) differs from them on some Saturday for a
rotation type in {1, 2}. -/
theorem claim_C1 :
    (∀ (fecha : Fecha) (tipoDescanso : Nat),
        esSabadoDescanso_checkMe fecha tipoDescanso =
          esSabadoDescanso_checkAllPast fecha tipoDescanso) ∧
      ∃ (fecha : Fecha) (tipoDescanso : Nat),
        getDayJS fecha = 6 ∧ (tipoDescanso = 1 ∨ tipoDescanso = 2) ∧
          esSabadoDescanso_checkMe fecha tipoDescanso ≠
            esSabadoDescanso_checkAll fecha tipoDescanso := by
  constructor
  · intro f t
    simp only [esSabadoDescanso_checkMe, esSabadoDescanso_checkAllPast]
    rcases Nat.mod_two_eq_zero_or_one (getWeekJS f) with h | h <;> simp [h]
  · exact ⟨⟨2025, 4, 5⟩, 1, by decide, Or.inl rfl, by decide⟩

/-- Claim C10: hour/minute normalization conserves logged time, daily and
weekly, and leaves a minute component below 60. -/
theorem claim_C10 :
    (∀ (fecha : Fecha) (th tm : Nat),
        (obtenerReporteDiario fecha (some (th, tm))).minutos < 60 ∧
          60 * (obtenerReporteDiario fecha (some (th, tm))).horas +
              (obtenerReporteDiario fecha (some (th, tm))).minutos =
            60 * th + tm) ∧
      ∀ dias : List DiaReporte,
        (calcularResumenSemanal dias).totalMinutos < 60 ∧
          60 * (calcularResumenSemanal dias).totalHoras +
              (calcularResumenSemanal dias).totalMinutos =
            (dias.map fun d => 60 * d.horas + d.minutos).sum := by
  constructor
  · intro fecha th tm
    obtain ⟨h1, h2⟩ := minutos_reporte fecha th tm
    rw [h1, h2]
    omega
  · intro dias
    have hM : (calcularResumenSemanal dias).totalMinutos =
        (dias.map fun d => d.minutos).sum % 60 := by
      simp only [calcularResumenSemanal]
      rw [foldl_add_map]
      simp
    have hH : (calcularResumenSemanal dias).totalHoras =
        (dias.map fun d => d.horas).sum +
          (dias.map fun d => d.minutos).sum / 60 := by
      simp only [calcularResumenSemanal]
      rw [foldl_add_map, foldl_add_map]
      simp
    rw [hM, hH, sum_sesenta]
    omega

/-- Claim C9: the weekly summary of the empty record list has zero totals,
a required string of zero, and vacuous compliance. -/
theorem claim_C9 :
    calcularResumenSemanal [] =
      { totalHoras := 0, totalMinutos := 0, horasRequeridas := "0h 00m",
        cumpleRequerimiento := true } := by
  have h1 : (calcularResumenSemanal []).horasRequeridas = "0h 00m" := by
    rw [requeridas_semanal]
    rfl
  have h2 : (calcularResumenSemanal []).cumpleRequerimiento = true :=
    (cumple_semanal_iff []).mpr (by simp)
  have h3 : (calcularResumenSemanal []).totalHoras = 0 := rfl
  have h4 : (calcularResumenSemanal []).totalMinutos = 0 := rfl
  rw [show calcularResumenSemanal [] =
      ⟨(calcularResumenSemanal []).totalHoras,
        (calcularResumenSemanal []).totalMinutos,
        (calcularResumenSemanal []).horasRequeridas,
        (calcularResumenSemanal []).cumpleRequerimiento⟩ from rfl,
    h1, h2, h3, h4]

/-- Claim C5: the weekly summary totals the records' logged minutes, its
required total is 510 minutes per weekday record plus 180 per Saturday
record, its pass flag compares those totals, and it ignores the records'
own daily pass flags (a list whose only record claims to pass still
fails the week when its minutes fall short). -/
theorem claim_C5 :
    (∀ dias : List DiaReporte,
        (60 * (calcularResumenSemanal dias).totalHoras +
            (calcularResumenSemanal dias).totalMinutos =
          (dias.map fun d => 60 * d.horas + d.minutos).sum) ∧
        ((calcularResumenSemanal dias).horasRequeridas =
          toString ((510 * (dias.filter fun d => !d.esSabado).length +
              180 * (dias.filter fun d => d.esSabado).length) / 60) ++ "h " ++
            padStart2 (toString ((510 * (dias.filter fun d => !d.esSabado).length +
              180 * (dias.filter fun d => d.esSabado).length) % 60)) ++ "m") ∧
        ((calcularResumenSemanal dias).cumpleRequerimiento = true ↔
          510 * (dias.filter fun d => !d.esSabado).length +
              180 * (dias.filter fun d => d.esSabado).length ≤
            (dias.map fun d => 60 * d.horas + d.minutos).sum)) ∧
      (([⟨"", ⟨2025, 3, 3⟩, "", 0, 0, true, false⟩] :
          List DiaReporte).all fun d => d.cumpleRequerimiento) = true ∧
      (calcularResumenSemanal
          [⟨"", ⟨2025, 3, 3⟩, "", 0, 0, true, false⟩]).cumpleRequerimiento = false := by
  refine ⟨fun dias => ⟨?_, requeridas_semanal dias, cumple_semanal_iff dias⟩, by decide, ?_⟩
  · have hM : (calcularResumenSemanal dias).totalMinutos =
        (dias.map fun d => d.minutos).sum % 60 := by
      simp only [calcularResumenSemanal]
      rw [foldl_add_map]
      simp
    have hH : (calcularResumenSemanal dias).totalHoras =
        (dias.map fun d => d.horas).sum +
          (dias.map fun d => d.minutos).sum / 60 := by
      simp only [calcularResumenSemanal]
      rw [foldl_add_map, foldl_add_map]
      simp
    rw [hM, hH, sum_sesenta]
    omega
  · cases hc : (calcularResumenSemanal
        [⟨"", ⟨2025, 3, 3⟩, "", 0, 0, true, false⟩]).cumpleRequerimiento
    · rfl
    · exfalso
      have := (cumple_semanal_iff _).mp hc
      revert this
      decide

lemma mensaje_450 :
    (obtenerReporteDiario ⟨2025, 3, 4⟩ (some (0, 450))).mensaje =
      "*7h 30m* - *Faltan 1h 0m*" := by
  have h6 : (getDayJS ⟨2025, 3, 4⟩ == 6) = false := by decide
  simp only [obtenerReporteDiario, h6, Bool.false_eq_true, if_false]
  norm_num
  rfl

lemma mensaje_sinreg :
    (obtenerReporteDiario ⟨2025, 3, 8⟩ none).mensaje =
      "*Sin registro* - *Faltan 3h 0m*" := by
  have h6 : (getDayJS ⟨2025, 3, 8⟩ == 6) = true := by decide
  simp only [obtenerReporteDiario, h6, if_true]
  norm_num
  rfl

lemma cumple_450 :
    (obtenerReporteDiario ⟨2025, 3, 4⟩ (some (0, 450))).cumpleRequerimiento = false := by
  cases hc : (obtenerReporteDiario ⟨2025, 3, 4⟩ (some (0, 450))).cumpleRequerimiento
  · rfl
  · exfalso
    have := (cumple_diario_iff _ _).mp hc
    revert this
    decide

lemma cumple_sinreg :
    (obtenerReporteDiario ⟨2025, 3, 8⟩ none).cumpleRequerimiento = false := rfl

lemma enviar_checkAll_any (rs : List DiaReporte) :
    decideEnviar_checkAll rs = true ↔ ∃ r ∈ rs, r.cumpleRequerimiento = false := by
  have hfold : ∀ (l : List DiaReporte) (b : Bool),
      l.foldl (fun tienePendientes reporte =>
        if !reporte.cumpleRequerimiento then true else tienePendientes) b =
        (b || l.any fun r => !r.cumpleRequerimiento) := by
    intro l
    induction l with
    | nil => intro b; simp
    | cons r tl ih =>
      intro b
      rw [List.foldl_cons, ih]
      cases hr : r.cumpleRequerimiento <;> cases b <;>
        simp [hr, List.any_cons]
  unfold decideEnviar_checkAll
  rw [hfold]
  simp [List.any_eq_true, Bool.not_eq_true']

lemma sum_requerido (rs : List DiaReporte) :
    (rs.map fun d => if d.esSabado then 180 else 510).sum =
      510 * (rs.filter fun d => !d.esSabado).length +
        180 * (rs.filter fun d => d.esSabado).length := by
  induction rs with
  | nil => simp
  | cons d tl ih => cases hd : d.esSabado <;> simp [hd, ih] <;> ring

lemma mensual_eq_semanal (rs : List DiaReporte) (sab fest : Nat) :
    (calcularResumenMensual rs sab fest).cumpleRequerimiento =
      (calcularResumenSemanal rs).cumpleRequerimiento := rfl

lemma mensual_nil_fail :
    (calcularResumenMensual [obtenerReporteDiario ⟨2025, 3, 3⟩ none] 0 0).cumpleRequerimiento
      = false := by
  rw [mensual_eq_semanal]
  cases hc : (calcularResumenSemanal
      [obtenerReporteDiario ⟨2025, 3, 3⟩ none]).cumpleRequerimiento
  · rfl
  · exfalso
    have := (cumple_semanal_iff _).mp hc
    revert this
    decide

/-- Claim C2 (counterexample): an employee whose monthly total passes (one
empty day followed by a 17-hour day, totalling exactly the two-day
requirement) is still sent a report by `crm-check-all-admin`, whose
decision scans per-day failures — refuting "message sent iff monthly
summary pass is false" for that command. -/
theorem claim_C2_counterexample :
    decideEnviar_checkAll
        [obtenerReporteDiario ⟨2025, 3, 3⟩ none,
          obtenerReporteDiario ⟨2025, 3, 4⟩ (some (17, 0))] = true ∧
      (calcularResumenMensual
          [obtenerReporteDiario ⟨2025, 3, 3⟩ none,
            obtenerReporteDiario ⟨2025, 3, 4⟩ (some (17, 0))] 0
          0).cumpleRequerimiento = true := by
  constructor
  · apply (enviar_checkAll_any _).mpr
    exact ⟨obtenerReporteDiario ⟨2025, 3, 3⟩ none, by simp, rfl⟩
  · rw [mensual_eq_semanal]
    exact (cumple_semanal_iff _).mpr (by decide)

/-- Claim C2 (amended): `crm-check-all-admin-past` sends a report exactly
when the monthly summary fails; `crm-check-all-admin` instead sends
exactly when some daily record fails, which is implied by — but not
equivalent to — monthly failure whenever the records come from the daily
report computation. -/
theorem claim_C2 :
    (∀ (rs : List DiaReporte) (sab fest : Nat),
        decideEnviar_checkAllPast rs sab fest = true ↔
          (calcularResumenMensual rs sab fest).cumpleRequerimiento = false) ∧
      (∀ rs : List DiaReporte,
        decideEnviar_checkAll rs = true ↔
          ∃ r ∈ rs, r.cumpleRequerimiento = false) ∧
      ∀ (rs : List DiaReporte) (sab fest : Nat),
        (∀ r ∈ rs, ∃ (fecha : Fecha) (consulta : Option (Nat × Nat)),
            r = obtenerReporteDiario fecha consulta) →
        (calcularResumenMensual rs sab fest).cumpleRequerimiento = false →
        decideEnviar_checkAll rs = true := by
  refine ⟨?_, enviar_checkAll_any, ?_⟩
  · intro rs sab fest
    simp [decideEnviar_checkAllPast, Bool.not_eq_true']
  · intro rs sab fest hwf hfail
    by_cases hsend : decideEnviar_checkAll rs = true
    · exact hsend
    · exfalso
      have hall : ∀ r ∈ rs, r.cumpleRequerimiento = true := by
        intro r hrm
        cases hcr : r.cumpleRequerimiento
        · exact absurd ((enviar_checkAll_any rs).mpr ⟨r, hrm, hcr⟩) hsend
        · rfl
      have hle : (rs.map fun d => if d.esSabado then (180 : ℕ) else 510).sum ≤
          (rs.map fun d => 60 * d.horas + d.minutos).sum := by
        apply List.sum_le_sum
        intro r hrm
        obtain ⟨f, q, hr⟩ := hwf r hrm
        have hc := (cumple_diario_iff f q).mp (by rw [← hr]; exact hall r hrm)
        subst hr
        rw [esSabado_reporte]
        by_cases h : getDayJS f = 6 <;> simp [h] <;> simp [h] at hc <;> omega
      have hmois := (cumple_semanal_iff rs).mpr (le_trans (le_of_eq (sum_requerido rs).symm) hle)
      rw [mensual_eq_semanal, hmois] at hfail
      exact absurd hfail (by simp)

/-- Claim C2 (witness): a single-record list from an empty working day is
well-formed, its monthly summary fails, and the amended theorem then
forces `crm-check-all-admin` to send. -/
theorem claim_C2_witness :
    decideEnviar_checkAll [obtenerReporteDiario ⟨2025, 3, 3⟩ none] = true :=
  claim_C2.2.2 [obtenerReporteDiario ⟨2025, 3, 3⟩ none] 0 0
    (fun _ hr => ⟨⟨2025, 3, 3⟩, none, List.mem_singleton.mp hr⟩)
    mensual_nil_fail

/-- Claim C4: the daily record requires 180 minutes on Saturdays and 510
otherwise, treats an absent activity row as zero logged minutes, passes
exactly when logged minutes reach the requirement, and reports the
shortfall rounded to whole minutes ("1h 0m" for 450 logged minutes on a
weekday, "3h 0m" for an empty working Saturday). -/
theorem claim_C4 :
    (∀ (fecha : Fecha) (consulta : Option (Nat × Nat)),
        ((obtenerReporteDiario fecha consulta).cumpleRequerimiento = true ↔
          (if getDayJS fecha = 6 then 180 else 510) ≤
            60 * (obtenerReporteDiario fecha consulta).horas +
              (obtenerReporteDiario fecha consulta).minutos) ∧
        (consulta = none →
          (obtenerReporteDiario fecha consulta).horas = 0 ∧
            (obtenerReporteDiario fecha consulta).minutos = 0 ∧
            (obtenerReporteDiario fecha consulta).cumpleRequerimiento = false)) ∧
      getDayJS ⟨2025, 3, 4⟩ ≠ 6 ∧
      (obtenerReporteDiario ⟨2025, 3, 4⟩ (some (0, 450))).cumpleRequerimiento = false ∧
      (obtenerReporteDiario ⟨2025, 3, 4⟩ (some (0, 450))).mensaje =
        "*7h 30m* - *Faltan 1h 0m*" ∧
      getDayJS ⟨2025, 3, 8⟩ = 6 ∧
      (obtenerReporteDiario ⟨2025, 3, 8⟩ none).cumpleRequerimiento = false ∧
      (obtenerReporteDiario ⟨2025, 3, 8⟩ none).mensaje =
        "*Sin registro* - *Faltan 3h 0m*" := by
  refine ⟨fun fecha consulta => ⟨cumple_diario_iff fecha consulta, ?_⟩,
    by decide, cumple_450, mensaje_450, by decide, cumple_sinreg, mensaje_sinreg⟩
  intro h
  subst h
  exact ⟨rfl, rfl, rfl⟩

/-- Claim C4 (witness): the absent-row clause evaluated at a concrete
date. -/
theorem claim_C4_witness :
    (obtenerReporteDiario ⟨2025, 3, 3⟩ none).horas = 0 ∧
      (obtenerReporteDiario ⟨2025, 3, 3⟩ none).minutos = 0 ∧
      (obtenerReporteDiario ⟨2025, 3, 3⟩ none).cumpleRequerimiento = false :=
  (claim_C4.1 ⟨2025, 3, 3⟩ none).2 rfl

/-- Claim C8 (counterexample): a non-existent task id makes the relay throw
(`Except.error`), not return a benign result string — refuting "yields a
descriptive non-fatal result string rather than a thrown error" for the
task-not-found case (no message is sent, though). -/
theorem claim_C8_counterexample :
    (notifyExecute ⟨fun _ => none, fun _ => none, fun _ => none, fun _ => none⟩
        "NotificarAsignado" 1).1 =
      Except.error "La tarea con ID 1 no existe." ∧
    (notifyExecute ⟨fun _ => none, fun _ => none, fun _ => none, fun _ => none⟩
        "NotificarAsignado" 1).1.isOk = false ∧
    (notifyExecute ⟨fun _ => none, fun _ => none, fun _ => none, fun _ => none⟩
        "NotificarAsignado" 1).2 = [] :=
  ⟨rfl, rfl, rfl⟩

/-- Claim C8 (amended): for each notification target kind, a missing task
throws a "task does not exist" error without sending; a missing target
code, a missing stored aliasSlack, or an unresolvable Slack identity each
terminate with a descriptive `Except.ok` result string without sending. -/
theorem claim_C8 :
    ∀ (env : EntornoNotify) (vaDirigidoA : String) (tarSec : Nat),
      vaDirigidoA = "NotificarAsignado" ∨ vaDirigidoA = "NotificarCreador" →
      (env.tareas tarSec = none →
          notifyExecute env vaDirigidoA tarSec =
            (Except.error ("La tarea con ID " ++ toString tarSec ++ " no existe."),
              [])) ∧
      (∀ tarea, env.tareas tarSec = some tarea →
          targetDe vaDirigidoA tarea = none →
          (notifyExecute env vaDirigidoA tarSec).2 = [] ∧
            (notifyExecute env vaDirigidoA tarSec).1 =
              Except.ok ("La tarea " ++ toString tarSec ++
                " no tiene un destinatario válido para la acción \x27" ++
                vaDirigidoA ++ "\x27.")) ∧
      (∀ tarea funCod, env.tareas tarSec = some tarea →
          targetDe vaDirigidoA tarea = some funCod →
          env.usernameDe funCod = none →
          (notifyExecute env vaDirigidoA tarSec).2 = [] ∧
            (notifyExecute env vaDirigidoA tarSec).1 =
              Except.ok ("No se encontró el username de Slack para el funcionario " ++
                funCod ++ ".")) ∧
      (∀ tarea funCod aliasSlack, env.tareas tarSec = some tarea →
          targetDe vaDirigidoA tarea = some funCod →
          env.usernameDe funCod = some aliasSlack →
          env.slackIdDe aliasSlack = none →
          (notifyExecute env vaDirigidoA tarSec).2 = [] ∧
            (notifyExecute env vaDirigidoA tarSec).1 =
              Except.ok ("No se encontró el usuario de Slack correspondiente al funcionario " ++
                funCod ++ ".")) := by
  intro env vaDirigidoA tarSec hva
  rcases hva with h | h <;> subst h
  · refine ⟨fun hn => by simp [notifyExecute, hn], ?_, ?_, ?_⟩
    · intro tarea ht htg
      simp [targetDe] at htg
      simp [notifyExecute, notifyContinuar, ht, htg]
    · intro tarea funCod ht htg hu
      simp [targetDe] at htg
      simp [notifyExecute, notifyContinuar, ht, htg, hu]
    · intro tarea funCod aliasSlack ht htg hu hs
      simp [targetDe] at htg
      simp [notifyExecute, notifyContinuar, ht, htg, hu, hs]
  · refine ⟨fun hn => by simp [notifyExecute, hn], ?_, ?_, ?_⟩
    · intro tarea ht htg
      simp [targetDe] at htg
      simp [notifyExecute, notifyContinuar, ht, htg]
    · intro tarea funCod ht htg hu
      simp [targetDe] at htg
      simp [notifyExecute, notifyContinuar, ht, htg, hu]
    · intro tarea funCod aliasSlack ht htg hu hs
      simp [targetDe] at htg
      simp [notifyExecute, notifyContinuar, ht, htg, hu, hs]

/-- Claim C8 (witness): the missing-target-code case at a concrete task. -/
theorem claim_C8_witness :
    (notifyExecute ⟨fun _ => some ⟨1, "", none, none⟩, fun _ => none,
        fun _ => none, fun _ => none⟩ "NotificarAsignado" 1).2 = [] :=
  ((claim_C8 ⟨fun _ => some ⟨1, "", none, none⟩, fun _ => none,
        fun _ => none, fun _ => none⟩ "NotificarAsignado" 1
      (Or.inl rfl)).2.1 ⟨1, "", none, none⟩ rfl (by simp [targetDe])).1


lemma diasMes_pos (y m : Nat) : 1 ≤ diasMes y m := by
  simp only [diasMes]
  split_ifs <;> omega

lemma diasAntesMes_succ (y m : Nat) (h1 : 1 ≤ m) (h2 : m ≤ 12) :
    diasAntesMes y (m + 1) = diasAntesMes y m + diasMes y m := by
  interval_cases m <;> cases h : isLeap y <;> simp [diasAntesMes, diasMes, h]

lemma diasAntesMes_mono (y : Nat) {a b : Nat} (h : a ≤ b) (hb : b ≤ 13) :
    diasAntesMes y a ≤ diasAntesMes y b := by
  induction b with
  | zero =>
    have : a = 0 := by omega
    subst this
    exact le_refl _
  | succ n ih =>
    rcases Nat.lt_or_ge a (n + 1) with hlt | hge
    · have hstep : diasAntesMes y n ≤ diasAntesMes y (n + 1) := by
        rcases Nat.eq_zero_or_pos n with rfl | hn
        · simp [diasAntesMes]
        · have := diasMes_pos y n
          rw [diasAntesMes_succ y n hn (by omega)]
          omega
      exact le_trans (ih (by omega) (by omega)) hstep
    · have : a = n + 1 := by omega
      subst this
      exact le_refl _

lemma antesAnio_succ (y : Nat) (hy : 1 ≤ y) :
    antesAnio (y + 1) = antesAnio y + 365 + (if isLeap y then 1 else 0) := by
  obtain ⟨x, rfl⟩ : ∃ x, y = x + 1 := ⟨y - 1, by omega⟩
  have h4 := Nat.succ_div x 4
  have h100 := Nat.succ_div x 100
  have h400 := Nat.succ_div x 400
  have hif : (if isLeap (x + 1) then (1 : Nat) else 0) =
      (if (x + 1) % 4 = 0 ∧ ¬ (x + 1) % 100 = 0 ∨ (x + 1) % 400 = 0
        then 1 else 0) := by
    simp [isLeap]
  rw [hif]
  unfold antesAnio
  simp only [Nat.add_sub_cancel]
  rw [h4, h100, h400]
  split_ifs <;> omega

lemma antesAnio_mono {a b : Nat} (ha : 1 ≤ a) (h : a ≤ b) :
    antesAnio a ≤ antesAnio b := by
  induction b with
  | zero => exact absurd h (by omega)
  | succ n ih =>
    rcases Nat.lt_or_ge a (n + 1) with hlt | hge
    · have hn : 1 ≤ n := by omega
      have hstep : antesAnio n ≤ antesAnio (n + 1) := by
        rw [antesAnio_succ n hn]
        omega
      exact le_trans (ih (by omega)) hstep
    · have : a = n + 1 := by omega
      subst this
      exact le_refl _

lemma doy_le (y m : Nat) (h1 : 1 ≤ m) (h2 : m ≤ 12) :
    diasAntesMes y m + diasMes y m ≤ 365 + (if isLeap y then 1 else 0) := by
  interval_cases m <;> cases h : isLeap y <;> simp [diasAntesMes, diasMes, h]

lemma rd_bounds (f : Fecha) (hv : Valid f) :
    antesAnio f.y + 1 ≤ rd f ∧ rd f ≤ antesAnio (f.y + 1) := by
  obtain ⟨y, m, d⟩ := f
  obtain ⟨hy, hm1, hm2, hd1, hd2⟩ := hv
  dsimp only at hy hm1 hm2 hd1 hd2 ⊢
  unfold rd dayOfYear
  dsimp only
  rw [antesAnio_succ y hy]
  have hle := doy_le y m hm1 hm2
  omega

lemma rd_lt_year {f g : Fecha} (hf : Valid f) (hg : Valid g) (h : f.y < g.y) :
    rd f < rd g := by
  have h1 := (rd_bounds f hf).2
  have h2 := (rd_bounds g hg).1
  have h3 : antesAnio (f.y + 1) ≤ antesAnio g.y :=
    antesAnio_mono (by omega) (by omega)
  omega

lemma doy_lt_month (y ma da mb db : Nat) (hma : 1 ≤ ma) (hmb : ma < mb)
    (hmb2 : mb ≤ 12) (hda : da ≤ diasMes y ma) (hdb : 1 ≤ db) :
    diasAntesMes y ma + da < diasAntesMes y mb + db := by
  have h1 : diasAntesMes y ma + diasMes y ma ≤ diasAntesMes y mb := by
    rw [← diasAntesMes_succ y ma hma (by omega)]
    exact diasAntesMes_mono y (by omega) (by omega)
  omega

lemma rd_inj {f g : Fecha} (hf : Valid f) (hg : Valid g) (h : rd f = rd g) :
    f = g := by
  rcases lt_trichotomy f.y g.y with hy | hy | hy
  · exact absurd h (Nat.ne_of_lt (rd_lt_year hf hg hy))
  · obtain ⟨fy, fm, fd⟩ := f
    obtain ⟨gy, gm, gd⟩ := g
    obtain ⟨hy1, hm1, hm2, hd1, hd2⟩ := hf
    obtain ⟨hy1g, hm1g, hm2g, hd1g, hd2g⟩ := hg
    simp only at hy hy1 hm1 hm2 hd1 hd2 hy1g hm1g hm2g hd1g hd2g
    subst hy
    have hdoy : dayOfYear ⟨fy, fm, fd⟩ = dayOfYear ⟨fy, gm, gd⟩ := by
      unfold rd at h
      simp only at h
      omega
    unfold dayOfYear at hdoy
    simp only at hdoy
    rcases lt_trichotomy fm gm with hm | hm | hm
    · exact absurd hdoy (Nat.ne_of_lt (doy_lt_month fy fm fd gm gd hm1 hm hm2g hd2 hd1g))
    · subst hm
      have : fd = gd := by omega
      subst this
      rfl
    · exact absurd hdoy.symm (Nat.ne_of_lt (doy_lt_month fy gm gd fm fd hm1g hm hm2 hd2g hd1))
  · exact absurd h.symm (Nat.ne_of_lt (rd_lt_year hg hf hy))

lemma valid_mk {y m d : Nat} :
    Valid ⟨y, m, d⟩ ↔ 1 ≤ y ∧ 1 ≤ m ∧ m ≤ 12 ∧ 1 ≤ d ∧ d ≤ diasMes y m :=
  Iff.rfl

lemma rd_mk (y m d : Nat) :
    rd ⟨y, m, d⟩ = antesAnio y + (diasAntesMes y m + d) := rfl

lemma nextDay_mk_lt {y m d : Nat} (h : d < diasMes y m) :
    nextDay ⟨y, m, d⟩ = ⟨y, m, d + 1⟩ := by
  simp [nextDay, h]

lemma nextDay_mk_mes {y m d : Nat} (h : ¬ d < diasMes y m) (h2 : m < 12) :
    nextDay ⟨y, m, d⟩ = ⟨y, m + 1, 1⟩ := by
  simp [nextDay, h, h2]

lemma nextDay_mk_anio {y m d : Nat} (h : ¬ d < diasMes y m) (h2 : ¬ m < 12) :
    nextDay ⟨y, m, d⟩ = ⟨y + 1, 1, 1⟩ := by
  simp [nextDay, h, h2]

lemma nextDay_valid {f : Fecha} (hv : Valid f) : Valid (nextDay f) := by
  obtain ⟨y, m, d⟩ := f
  obtain ⟨hy, hm1, hm2, hd1, hd2⟩ := valid_mk.mp hv
  by_cases h1 : d < diasMes y m
  · rw [nextDay_mk_lt h1, valid_mk]
    exact ⟨hy, hm1, hm2, by omega, by omega⟩
  · by_cases h2 : m < 12
    · rw [nextDay_mk_mes h1 h2, valid_mk]
      exact ⟨hy, by omega, by omega, by omega, diasMes_pos y (m + 1)⟩
    · rw [nextDay_mk_anio h1 h2, valid_mk]
      exact ⟨by omega, by omega, by omega, by omega, diasMes_pos (y + 1) 1⟩

lemma rd_nextDay {f : Fecha} (hv : Valid f) : rd (nextDay f) = rd f + 1 := by
  obtain ⟨y, m, d⟩ := f
  obtain ⟨hy, hm1, hm2, hd1, hd2⟩ := valid_mk.mp hv
  by_cases h1 : d < diasMes y m
  · rw [nextDay_mk_lt h1, rd_mk, rd_mk]
    omega
  · by_cases h2 : m < 12
    · rw [nextDay_mk_mes h1 h2, rd_mk, rd_mk]
      have hd : d = diasMes y m := by omega
      rw [diasAntesMes_succ y m hm1 hm2]
      omega
    · rw [nextDay_mk_anio h1 h2, rd_mk, rd_mk]
      have hm : m = 12 := by omega
      subst hm
      have hd : d = 31 := by
        have h31 : diasMes y 12 = 31 := rfl
        omega
      subst hd
      rw [antesAnio_succ y hy]
      cases h : isLeap y <;> simp [diasAntesMes, h]


lemma mem_listaDias (n : Nat) (f g : Fecha) (hf : Valid f) :
    g ∈ listaDias n f ↔ (Valid g ∧ rd f ≤ rd g ∧ rd g < rd f + n) := by
  induction n generalizing f with
  | zero =>
    simp only [listaDias]
    constructor
    · intro h
      cases h
    · rintro ⟨_, h1, h2⟩
      omega
  | succ n ih =>
    simp only [listaDias, List.mem_cons]
    constructor
    · rintro (rfl | hmem)
      · exact ⟨hf, le_refl _, by omega⟩
      · obtain ⟨h1, h2, h3⟩ := (ih (nextDay f) (nextDay_valid hf)).mp hmem
        rw [rd_nextDay hf] at h2 h3
        exact ⟨h1, by omega, by omega⟩
    · rintro ⟨hvg, h1, h2⟩
      by_cases hfg : rd g = rd f
      · exact Or.inl (rd_inj hvg hf hfg)
      · refine Or.inr ((ih (nextDay f) (nextDay_valid hf)).mpr ⟨hvg, ?_, ?_⟩)
        · rw [rd_nextDay hf]; omega
        · rw [rd_nextDay hf]; omega

lemma mem_eachDayOfInterval (ini fin g : Fecha) (hv : Valid ini) :
    g ∈ eachDayOfInterval ini fin ↔
      (Valid g ∧ rd ini ≤ rd g ∧ rd g ≤ rd fin) := by
  unfold eachDayOfInterval
  rw [mem_listaDias _ _ _ hv]
  constructor
  · rintro ⟨a, b, c⟩; exact ⟨a, b, by omega⟩
  · rintro ⟨a, b, c⟩; exact ⟨a, b, by omega⟩

lemma pairwise_listaDias (n : Nat) (f : Fecha) (hf : Valid f) :
    (listaDias n f).Pairwise (fun a b => rd a < rd b) := by
  induction n generalizing f with
  | zero => simp [listaDias]
  | succ n ih =>
    simp only [listaDias, List.pairwise_cons]
    refine ⟨?_, ih (nextDay f) (nextDay_valid hf)⟩
    intro b hb
    have := (mem_listaDias n (nextDay f) b (nextDay_valid hf)).mp hb
    rw [rd_nextDay hf] at this
    omega

/-- Claim C6: the working-day computation returns exactly the valid dates
of the inclusive range that are not Sundays, not holidays and not rest
Saturdays, in strictly ascending date order, and it is invariant under
permutation of the holiday list. -/
theorem claim_C6 :
    ∀ (fechaInicio fechaFin : Fecha) (tipoDescanso : Nat)
      (festivos : List Fecha), Valid fechaInicio →
      (∀ dia : Fecha,
          dia ∈ obtenerDiasLaborables fechaInicio fechaFin tipoDescanso festivos ↔
            (Valid dia ∧ rd fechaInicio ≤ rd dia ∧ rd dia ≤ rd fechaFin ∧
              getDayJS dia ≠ 0 ∧ dia ∉ festivos ∧
              esSabadoDescanso_checkMe dia tipoDescanso = false)) ∧
      (obtenerDiasLaborables fechaInicio fechaFin tipoDescanso festivos).Pairwise
        (fun a b => rd a < rd b) ∧
      (∀ festivos2 : List Fecha, festivos.Perm festivos2 →
        obtenerDiasLaborables fechaInicio fechaFin tipoDescanso festivos =
          obtenerDiasLaborables fechaInicio fechaFin tipoDescanso festivos2) := by
  intro fechaInicio fechaFin tipoDescanso festivos hv
  refine ⟨?_, ?_, ?_⟩
  · intro dia
    unfold obtenerDiasLaborables
    rw [List.mem_filter, mem_eachDayOfInterval _ _ _ hv]
    simp only [Bool.and_eq_true, Bool.not_eq_true', decide_eq_false_iff_not,
      beq_eq_false_iff_ne, ne_eq]
    constructor
    · rintro ⟨⟨a, b, c⟩, ⟨d, e⟩, g⟩
      exact ⟨a, b, c, e, d, g⟩
    · rintro ⟨a, b, c, d, e, g⟩
      exact ⟨⟨a, b, c⟩, ⟨e, d⟩, g⟩
  · exact List.Pairwise.sublist (List.filter_sublist _)
      (pairwise_listaDias _ _ hv)
  · intro festivos2 hperm
    unfold obtenerDiasLaborables
    apply List.filter_congr
    intro a _
    have hdec : decide (a ∈ festivos) = decide (a ∈ festivos2) :=
      decide_eq_decide.mpr hperm.mem_iff
    rw [hdec]

/-- Claim C6 (witness): the characterization applied on a concrete range,
giving a concrete working-day membership. -/
theorem claim_C6_witness :
    (⟨2025, 3, 10⟩ : Fecha) ∈
      obtenerDiasLaborables ⟨2025, 3, 1⟩ ⟨2025, 3, 10⟩ 1 [] :=
  ((claim_C6 ⟨2025, 3, 1⟩ ⟨2025, 3, 10⟩ 1 [] (by decide)).1 ⟨2025, 3, 10⟩).mpr
    (by refine ⟨by decide, by decide, by decide, by decide, by decide, by decide⟩)


lemma prevDay_mk_d {y m d : Nat} (h : 1 < d) :
    prevDay ⟨y, m, d⟩ = ⟨y, m, d - 1⟩ := by
  simp [prevDay, h]

lemma prevDay_mk_m {y m d : Nat} (h : ¬ 1 < d) (h2 : 1 < m) :
    prevDay ⟨y, m, d⟩ = ⟨y, m - 1, diasMes y (m - 1)⟩ := by
  simp [prevDay, h, h2]

lemma prevDay_mk_y {y m d : Nat} (h : ¬ 1 < d) (h2 : ¬ 1 < m) :
    prevDay ⟨y, m, d⟩ = ⟨y - 1, 12, 31⟩ := by
  simp [prevDay, h, h2]

lemma prevDay_valid_rd {f : Fecha} (hv : Valid f) (hy2 : 2 ≤ f.y) :
    Valid (prevDay f) ∧ rd (prevDay f) + 1 = rd f := by
  obtain ⟨y, m, d⟩ := f
  obtain ⟨hy, hm1, hm2, hd1, hd2⟩ := valid_mk.mp hv
  dsimp only at hy2
  by_cases h1 : 1 < d
  · rw [prevDay_mk_d h1, valid_mk, rd_mk, rd_mk]
    exact ⟨⟨hy, hm1, hm2, by omega, by omega⟩, by omega⟩
  · by_cases h2 : 1 < m
    · rw [prevDay_mk_m h1 h2, valid_mk, rd_mk, rd_mk]
      have hd : d = 1 := by omega
      subst hd
      have hm0 : 1 ≤ m - 1 := by omega
      have hsucc := diasAntesMes_succ y (m - 1) hm0 (by omega)
      rw [show m - 1 + 1 = m by omega] at hsucc
      exact ⟨⟨hy, by omega, by omega, diasMes_pos y (m - 1), le_refl _⟩, by omega⟩
    · rw [prevDay_mk_y h1 h2, valid_mk, rd_mk, rd_mk]
      have hd : d = 1 := by omega
      have hm : m = 1 := by omega
      subst hd
      subst hm
      have h31 : diasMes (y - 1) 12 = 31 := rfl
      have hsucc := antesAnio_succ (y - 1) (by omega)
      rw [show y - 1 + 1 = y by omega] at hsucc
      have h12 : diasAntesMes (y - 1) 12 + 31 = 365 + (if isLeap (y - 1) then 1 else 0) := by
        cases h : isLeap (y - 1) <;> simp [diasAntesMes, h]
      refine ⟨⟨by omega, by omega, by omega, by omega, by omega⟩, ?_⟩
      have h0 : diasAntesMes y 1 = 0 := rfl
      omega

/-- Claim C3 (counterexample): run on 2025-04-15, `crm-check-all-admin`
(`checkAll.js`) computes the full previous month 2025-03-01..2025-03-31,
not the first of the current month through yesterday. -/
theorem claim_C3_counterexample :
    periodo_checkAll ⟨2025, 4, 15⟩ = (⟨2025, 3, 1⟩, ⟨2025, 3, 31⟩) ∧
      periodo_checkAll ⟨2025, 4, 15⟩ ≠
        (⟨2025, 4, 1⟩, prevDay ⟨2025, 4, 15⟩) := by
  constructor
  · rfl
  · decide

/-- Claim C3 (amended): `crm-check-me` (`checkMe.js`) reports from the
first day of the current month through yesterday (today excluded), while
`crm-check-all-admin` (`checkAll.js`) reports the full previous calendar
month. -/
theorem claim_C3 :
    ∀ hoy : Fecha, Valid hoy → 2 ≤ hoy.y →
      ((periodo_checkMe hoy).1 = ⟨hoy.y, hoy.m, 1⟩ ∧
        Valid (periodo_checkMe hoy).2 ∧
        rd (periodo_checkMe hoy).2 + 1 = rd hoy) ∧
      ((periodo_checkAll hoy).1 =
          ⟨if hoy.m = 1 then hoy.y - 1 else hoy.y,
            if hoy.m = 1 then 12 else hoy.m - 1, 1⟩ ∧
        (periodo_checkAll hoy).2 =
          ⟨if hoy.m = 1 then hoy.y - 1 else hoy.y,
            if hoy.m = 1 then 12 else hoy.m - 1,
            diasMes (if hoy.m = 1 then hoy.y - 1 else hoy.y)
              (if hoy.m = 1 then 12 else hoy.m - 1)⟩ ∧
        Valid (periodo_checkAll hoy).1 ∧ Valid (periodo_checkAll hoy).2) := by
  intro hoy hv hy2
  obtain ⟨hy, hm1, hm2, hd1, hd2⟩ := hv
  have hpd := prevDay_valid_rd (f := hoy) ⟨hy, hm1, hm2, hd1, hd2⟩ hy2
  refine ⟨⟨rfl, hpd.1, hpd.2⟩, ?_⟩
  obtain ⟨y, m, d⟩ := hoy
  dsimp only at hy hm1 hm2 hd1 hd2 hy2 ⊢
  by_cases h1 : m = 1
  · subst h1
    have hb : ((1 : Nat) == 1) = true := rfl
    simp only [periodo_checkAll, subMonths1, startOfMonth, endOfMonth, hb,
      if_true, if_pos]
    refine ⟨by trivial, by trivial, ?_, ?_⟩
    · exact valid_mk.mpr ⟨by omega, by omega, by omega, by omega, diasMes_pos _ _⟩
    · exact valid_mk.mpr ⟨by omega, by omega, by omega, diasMes_pos _ _, le_refl _⟩
  · have hb : ((m : Nat) == 1) = false := by simpa using h1
    simp only [periodo_checkAll, subMonths1, startOfMonth, endOfMonth, hb,
      Bool.false_eq_true, if_false, h1]
    refine ⟨by trivial, by trivial, ?_, ?_⟩
    · exact valid_mk.mpr ⟨by omega, by omega, by omega, by omega, diasMes_pos _ _⟩
    · exact valid_mk.mpr ⟨by omega, by omega, by omega, diasMes_pos _ _, le_refl _⟩

/-- Claim C3 (witness): the amended theorem evaluated on 2025-04-15. -/
theorem claim_C3_witness :
    (periodo_checkMe ⟨2025, 4, 15⟩).1 = ⟨2025, 4, 1⟩ ∧
      rd (periodo_checkMe ⟨2025, 4, 15⟩).2 + 1 = rd ⟨2025, 4, 15⟩ ∧
      (periodo_checkAll ⟨2025, 4, 15⟩).1 = ⟨2025, 3, 1⟩ :=
  ⟨(claim_C3 ⟨2025, 4, 15⟩ (by decide) (by decide)).1.1,
    (claim_C3 ⟨2025, 4, 15⟩ (by decide) (by decide)).1.2.2,
    by
      have h := (claim_C3 ⟨2025, 4, 15⟩ (by decide) (by decide)).2.1
      simpa using h⟩


lemma sow_mono {a b : Nat} (h : a ≤ b) : sow a ≤ sow b := by
  unfold sow
  omega

lemma claveSemana_eq (a : DiaReporte) : claveSemana a = sow (rd a.fechaObj) := rfl

lemma rdPrimero_cons (d : DiaReporte) (tl : List DiaReporte) :
    rdPrimero (d :: tl) = rd d.fechaObj := rfl

lemma insertar_flatten (acc : List (Nat × List DiaReporte)) (k : Nat)
    (dia : DiaReporte) :
    ((insertarEnSemana acc k dia).map (fun p => p.2)).flatten.Perm
      ((acc.map (fun p => p.2)).flatten ++ [dia]) := by
  induction acc with
  | nil => simp [insertarEnSemana]
  | cons p rest ih =>
    obtain ⟨c, g⟩ := p
    by_cases hc : c = k
    · simp only [insertarEnSemana, if_pos hc, List.map_cons, List.flatten_cons]
      rw [List.append_assoc, List.append_assoc]
      exact List.Perm.append_left g (List.perm_append_comm)
    · simp only [insertarEnSemana, if_neg hc, List.map_cons, List.flatten_cons]
      rw [List.append_assoc]
      exact List.Perm.append_left g ih

lemma insertar_keys (acc : List (Nat × List DiaReporte)) (k : Nat)
    (dia : DiaReporte) :
    (insertarEnSemana acc k dia).map (fun p => p.1) =
      if k ∈ acc.map (fun p => p.1) then acc.map (fun p => p.1)
      else acc.map (fun p => p.1) ++ [k] := by
  induction acc with
  | nil => simp [insertarEnSemana]
  | cons p rest ih =>
    obtain ⟨c, g⟩ := p
    by_cases hc : c = k
    · subst hc
      simp [insertarEnSemana]
    · simp only [insertarEnSemana, if_neg hc, List.map_cons, ih,
        List.mem_cons]
      have hck : ¬ k = c := fun h => hc h.symm
      by_cases hk : k ∈ rest.map (fun p => p.1)
      · simp [hk, hck]
      · simp [hk, hck]

lemma insertar_cons_eq (rest : List (Nat × List DiaReporte)) (c : Nat)
    (g : List DiaReporte) (dia : DiaReporte) :
    insertarEnSemana ((c, g) :: rest) c dia = (c, g ++ [dia]) :: rest := by
  simp [insertarEnSemana]

lemma insertar_cons_ne (rest : List (Nat × List DiaReporte)) (c k : Nat)
    (g : List DiaReporte) (dia : DiaReporte) (hc : ¬ c = k) :
    insertarEnSemana ((c, g) :: rest) k dia =
      (c, g) :: insertarEnSemana rest k dia := by
  simp [insertarEnSemana, hc]

lemma insertar_nil (k : Nat) (dia : DiaReporte) :
    insertarEnSemana [] k dia = [(k, [dia])] := rfl

lemma insertar_grupos (acc : List (Nat × List DiaReporte)) (k : Nat)
    (dia : DiaReporte) (hk : claveSemana dia = k)
    (h : ∀ p ∈ acc, p.2 ≠ [] ∧ ∀ a ∈ p.2, claveSemana a = p.1) :
    ∀ p ∈ insertarEnSemana acc k dia,
      p.2 ≠ [] ∧ ∀ a ∈ p.2, claveSemana a = p.1 := by
  induction acc with
  | nil =>
    intro p hp
    rw [insertar_nil] at hp
    rcases List.mem_singleton.mp hp with rfl
    refine ⟨by simp, ?_⟩
    intro a ha
    rcases List.mem_singleton.mp ha with rfl
    exact hk
  | cons q rest ih =>
    obtain ⟨c, g⟩ := q
    intro p hp
    by_cases hc : c = k
    · subst hc
      rw [insertar_cons_eq] at hp
      rcases List.mem_cons.mp hp with hpe | hp2
      · subst hpe
        refine ⟨by simp, ?_⟩
        intro a ha
        rcases List.mem_append.mp ha with ha2 | ha2
        · exact (h (c, g) (List.mem_cons_self _ _)).2 a ha2
        · rcases List.mem_singleton.mp ha2 with rfl
          exact hk
      · exact h p (List.mem_cons_of_mem _ hp2)
    · rw [insertar_cons_ne _ _ _ _ _ hc] at hp
      rcases List.mem_cons.mp hp with hpe | hp2
      · subst hpe
        exact h (c, g) (List.mem_cons_self _ _)
      · exact ih (fun q hq => h q (List.mem_cons_of_mem _ hq)) p hp2

lemma fold_flatten (dias : List DiaReporte) :
    ∀ acc : List (Nat × List DiaReporte),
      ((dias.foldl (fun a dia => insertarEnSemana a (claveSemana dia) dia)
          acc).map (fun p => p.2)).flatten.Perm
        ((acc.map (fun p => p.2)).flatten ++ dias) := by
  induction dias with
  | nil => intro acc; simp
  | cons d tl ih =>
    intro acc
    rw [List.foldl_cons]
    refine (ih _).trans ?_
    have h1 := (insertar_flatten acc (claveSemana d) d).append_right tl
    refine h1.trans ?_
    rw [List.append_assoc]
    simp

lemma fold_inv (dias : List DiaReporte) :
    ∀ acc : List (Nat × List DiaReporte),
      (∀ p ∈ acc, p.2 ≠ [] ∧ ∀ a ∈ p.2, claveSemana a = p.1) →
      ((acc.map (fun p => p.1)).Nodup) →
      (∀ p ∈ dias.foldl (fun a dia => insertarEnSemana a (claveSemana dia) dia) acc,
          p.2 ≠ [] ∧ ∀ a ∈ p.2, claveSemana a = p.1) ∧
        ((dias.foldl (fun a dia => insertarEnSemana a (claveSemana dia) dia)
            acc).map (fun p => p.1)).Nodup := by
  induction dias with
  | nil => intro acc h1 h2; exact ⟨h1, h2⟩
  | cons d tl ih =>
    intro acc h1 h2
    rw [List.foldl_cons]
    refine ih _ (insertar_grupos acc _ d rfl h1) ?_
    rw [insertar_keys]
    by_cases hk : claveSemana d ∈ acc.map (fun p => p.1)
    · simpa [hk] using h2
    · simp only [if_neg hk]
      simp [List.nodup_append, h2, hk]


lemma agrupar_repr (d0 : DiaReporte) (tl : List DiaReporte) :
    agruparPorSemanas (d0 :: tl) =
      (((d0 :: tl).foldl
          (fun a dia => insertarEnSemana a (claveSemana dia) dia) []).map
        (fun p => p.2)).mergeSort
        (fun a b => rdPrimero a ≤ rdPrimero b) := by
  simp [agruparPorSemanas]

lemma agrupar_props (dias : List DiaReporte) :
    (agruparPorSemanas dias).flatten.Perm dias ∧
      (∀ g ∈ agruparPorSemanas dias, g ≠ [] ∧
        ∀ a ∈ g, claveSemana a = sow (rdPrimero g)) ∧
      ((agruparPorSemanas dias).map (fun g => sow (rdPrimero g))).Nodup ∧
      (agruparPorSemanas dias).Pairwise
        (fun g h => rdPrimero g ≤ rdPrimero h) := by
  rcases dias with _ | ⟨d0, tl⟩
  · refine ⟨by simp [agruparPorSemanas], ?_, ?_, ?_⟩
    · intro g hg
      simp [agruparPorSemanas] at hg
    · simp [agruparPorSemanas]
    · simp [agruparPorSemanas]
  · rw [agrupar_repr d0 tl]
    set L := d0 :: tl with hL
    set acc := L.foldl (fun a dia => insertarEnSemana a (claveSemana dia) dia) []
      with hacc
    set gs := acc.map (fun p => p.2) with hgs
    have hinv := fold_inv L []
      (by intro p hp; cases hp) (by simp)
    rw [← hacc] at hinv
    have hflat := fold_flatten L []
    rw [← hacc] at hflat
    have hp1 : ∀ p ∈ acc, p.1 = sow (rdPrimero p.2) := by
      intro p hp
      obtain ⟨hne, hcl⟩ := hinv.1 p hp
      rcases hp2 : p.2 with _ | ⟨hd, tl2⟩
      · exact absurd hp2 hne
      · have hhd := hcl hd (by rw [hp2]; exact List.mem_cons_self _ _)
        rw [rdPrimero_cons, ← claveSemana_eq, hhd]
    have hgrp : ∀ g ∈ gs, g ≠ [] ∧ ∀ a ∈ g, claveSemana a = sow (rdPrimero g) := by
      intro g hg
      obtain ⟨p, hp, rfl⟩ := List.mem_map.mp hg
      obtain ⟨hne, hcl⟩ := hinv.1 p hp
      exact ⟨hne, fun a ha => (hcl a ha).trans (hp1 p hp)⟩
    have hkeys : gs.map (fun g => sow (rdPrimero g)) = acc.map (fun p => p.1) := by
      rw [hgs, List.map_map]
      exact List.map_congr_left (fun p hp => (hp1 p hp).symm)
    have hnodup : (gs.map (fun g => sow (rdPrimero g))).Nodup := by
      rw [hkeys]
      exact hinv.2
    have hperm : (gs.mergeSort (fun a b => rdPrimero a ≤ rdPrimero b)).Perm gs :=
      List.mergeSort_perm gs _
    refine ⟨?_, ?_, ?_, ?_⟩
    · refine hperm.flatten.trans (hflat.trans ?_)
      simp
    · intro g hg
      exact hgrp g (hperm.mem_iff.mp hg)
    · have hmap := hperm.map (fun g => sow (rdPrimero g))
      exact hmap.symm.nodup hnodup
    · have hs : (gs.mergeSort (fun a b => rdPrimero a ≤ rdPrimero b)).Pairwise
          (fun a b => decide (rdPrimero a ≤ rdPrimero b) = true) :=
        List.sorted_mergeSort
          (fun a b c hab hbc => by
            simp only [decide_eq_true_eq] at hab hbc ⊢
            omega)
          (fun a b => by
            simp only [Bool.or_eq_true, decide_eq_true_eq]
            omega)
          gs
      exact hs.imp (fun h => by simpa using h)

/-- Claim C7: grouping by week then flattening reproduces the records as a
multiset; every record in a group lies in the same Monday-start week as
its group mates; the groups come in strictly ascending week-start order;
and the empty input yields the empty output. -/
theorem claim_C7 :
    ∀ dias : List DiaReporte,
      (agruparPorSemanas dias).flatten.Perm dias ∧
      (∀ g ∈ agruparPorSemanas dias, ∀ a ∈ g, ∀ b ∈ g,
        sow (rd a.fechaObj) = sow (rd b.fechaObj)) ∧
      (agruparPorSemanas dias).Pairwise (fun g h => ∀ a ∈ g, ∀ b ∈ h,
        sow (rd a.fechaObj) < sow (rd b.fechaObj)) ∧
      agruparPorSemanas ([] : List DiaReporte) = [] := by
  intro dias
  obtain ⟨h1, h2, h3, h4⟩ := agrupar_props dias
  refine ⟨h1, ?_, ?_, rfl⟩
  · intro g hg a ha b hb
    obtain ⟨hne, hcl⟩ := h2 g hg
    have hca := hcl a ha
    have hcb := hcl b hb
    rw [claveSemana_eq] at hca hcb
    rw [hca, hcb]
  · have h5 : (agruparPorSemanas dias).Pairwise
        (fun g h => sow (rdPrimero g) ≠ sow (rdPrimero h)) :=
      List.pairwise_map.mp h3
    have h6 := h4.and h5
    refine h6.imp_of_mem ?_
    intro g h hgm hhm hr a ha b hb
    obtain ⟨hneg, hclg⟩ := h2 g hgm
    obtain ⟨hneh, hclh⟩ := h2 h hhm
    have hca := hclg a ha
    have hcb := hclh b hb
    rw [claveSemana_eq] at hca hcb
    rw [hca, hcb]
    have hmono := sow_mono hr.1
    have hne := hr.2
    omega

end BotCrmF5
